import Mathlib

/-!
Verification of the docx-to-mdx converter (`converter/parse.py`,
`converter/verify.py`, `converter/utils.py`, `converter/prose.py`).

The Python code is shallowly embedded: strings are `String` (manipulated as
`List Char`), Python dicts with a known key set become structures with
`Option` fields, dicts with open key sets become association lists, Python
exceptions become `Except String`, and the regular expressions used by the
source are modelled by explicit scanners that reproduce the semantics of the
concrete patterns appearing in the code (`re.search`, `re.findall`,
`re.match`, lookbehind, lazy capture and rest-of-line capture).
-/

namespace D2M

/-- Python `\s` / `str.strip()` whitespace characters (ASCII range). -/
def pyWsChar (c : Char) : Bool :=
  c = ' ' || c = '\t' || c = '\n' || c = '\r' || c = '\x0b' || c = '\x0c'

/-- Python `str.strip()` on a character list. -/
def pyStripL (cs : List Char) : List Char :=
  ((cs.dropWhile pyWsChar).reverse.dropWhile pyWsChar).reverse

/-- Python `str.strip()` on a `String`. -/
def pyStripS (s : String) : String := ⟨pyStripL s.data⟩

/-- Python `str.strip(chars)`: strip any of the given characters from both ends. -/
def pyStripSetL (set : List Char) (cs : List Char) : List Char :=
  ((cs.dropWhile (· ∈ set)).reverse.dropWhile (· ∈ set)).reverse

/-- Case folding as used by `re.IGNORECASE` / `str.lower()` (ASCII inputs). -/
def lowerL (cs : List Char) : List Char := cs.map Char.toLower

/-- Python `str.upper()` on a character list (ASCII inputs). -/
def upperL (cs : List Char) : List Char := cs.map Char.toUpper

/-- Python `str.lower()` on a `String`. -/
def pyLowerS (s : String) : String := ⟨lowerL s.data⟩

/-- Literal (case-sensitive) prefix test on character lists. -/
def startsWithL : List Char → List Char → Bool
  | [], _ => true
  | _ :: _, [] => false
  | p :: ps, c :: cs => p = c && startsWithL ps cs

/-- Python `sub in s` substring test (`text` contains `pat`). -/
def strContainsL : List Char → List Char → Bool
  | _, [] => true
  | [], _ :: _ => false
  | c :: cs, p :: ps => startsWithL (p :: ps) (c :: cs) || strContainsL cs (p :: ps)

/-- Python `str.split(sep)` for a non-empty separator (fuel-driven scan). -/
def splitOnLAux (sep : List Char) : Nat → List Char → List Char → List (List Char)
  | 0, cur, _ => [cur.reverse]
  | _ + 1, cur, [] => [cur.reverse]
  | fuel + 1, cur, c :: cs =>
      if startsWithL sep (c :: cs) then
        cur.reverse :: splitOnLAux sep fuel [] ((c :: cs).drop sep.length)
      else
        splitOnLAux sep fuel (c :: cur) cs

/-- Python `str.split(sep)` on character lists. -/
def splitOnL (sep cs : List Char) : List (List Char) :=
  splitOnLAux sep (cs.length + 1) [] cs

/-- Python `str.split(ch)` for a single-character separator. -/
def splitOnCharL (ch : Char) : List Char → List (List Char)
  | [] => [[]]
  | c :: cs =>
      match splitOnCharL ch cs with
      | [] => [[c]]
      | g :: gs => if c = ch then [] :: g :: gs else (c :: g) :: gs

/-- Python `text.split("\n")[0]` (the first line of a string). -/
def firstLineS (s : String) : String := ⟨s.data.takeWhile (· != '\n')⟩

/-- Model of `re.search(label + "(.*?)\n", text, re.IGNORECASE)`: scan for the
leftmost case-insensitive occurrence of `label` that is followed (somewhere on
the same line) by a newline, and capture lazily up to that newline. -/
def fm (L : List Char) : List Char → Option (List Char)
  | [] => none
  | c :: cs =>
      if lowerL ((c :: cs).take L.length) = lowerL L ∧ '\n' ∈ (c :: cs).drop L.length then
        some (((c :: cs).drop L.length).takeWhile (· != '\n'))
      else fm L cs

/-- String wrapper of `fm`. -/
def fmS (L text : String) : Option String := (fm L.data text.data).map (⟨·⟩)

/-- Model of `re.search(label + "\s*(.*)", text, re.IGNORECASE)`: scan for the
leftmost case-insensitive occurrence of `label`, skip following whitespace
(greedy `\s*`, which may cross newlines), and capture the rest of that line. -/
def restSearch (L : List Char) : List Char → Option (List Char)
  | [] => none
  | c :: cs =>
      if lowerL ((c :: cs).take L.length) = lowerL L then
        some ((((c :: cs).drop L.length).dropWhile pyWsChar).takeWhile (· != '\n'))
      else restSearch L cs

/-- String wrapper of `restSearch`. -/
def restSearchS (L text : String) : Option String := (restSearch L.data text.data).map (⟨·⟩)

/-- Model of `re.findall(label + "(.*?)\n", text, re.IGNORECASE)`: all
non-overlapping matches, resuming after each matched newline. -/
def labelFindallAux (L : List Char) : Nat → List Char → List (List Char)
  | 0, _ => []
  | _ + 1, [] => []
  | fuel + 1, c :: cs =>
      if lowerL ((c :: cs).take L.length) = lowerL L ∧ '\n' ∈ (c :: cs).drop L.length then
        let v := (((c :: cs).drop L.length).takeWhile (· != '\n'))
        v :: labelFindallAux L fuel (((c :: cs).drop L.length).drop (v.length + 1))
      else labelFindallAux L fuel cs

/-- Scan `labelFindallAux` with enough fuel. -/
def labelFindall (L text : List Char) : List (List Char) :=
  labelFindallAux L (text.length + 1) text

/-- String wrapper of `labelFindall`. -/
def labelFindallS (L text : String) : List String :=
  (labelFindall L.data text.data).map (⟨·⟩)

/-- Model of `re.findall(r"\[([^\]]+)\]", text)`: every bracketed group with a
non-empty body that contains no closing bracket. -/
def bracketFindallAux : Nat → List Char → List (List Char)
  | 0, _ => []
  | _ + 1, [] => []
  | fuel + 1, c :: cs =>
      if c = '[' then
        let body := cs.takeWhile (· != ']')
        if body ≠ [] ∧ startsWithL [']'] (cs.drop body.length) then
          body :: bracketFindallAux fuel (cs.drop (body.length + 1))
        else bracketFindallAux fuel cs
      else bracketFindallAux fuel cs

/-- Scan `bracketFindallAux` with enough fuel. -/
def bracketFindall (text : List Char) : List (List Char) :=
  bracketFindallAux (text.length + 1) text

/-- Lookbehind test for `(?<=Value:\s)` (case-insensitive): the seven
characters before the current position, most recent first. -/
def valueLookbehind : List Char → Bool
  | a :: b1 :: b2 :: b3 :: b4 :: b5 :: b6 :: _ =>
      pyWsChar a && b1 = ':' && b2.toLower = 'e' && b3.toLower = 'u' &&
        b4.toLower = 'l' && b5.toLower = 'a' && b6.toLower = 'v'
  | _ => false

/-- Model of `re.findall(r"(?<=Value:\s)(.*)", text, re.IGNORECASE)`: at every
position preceded by `Value:` plus one whitespace character, capture the rest
of the line; scanning resumes after each capture (one step after an empty
capture, matching Python`s empty-match advance). -/
def valueFindallAux : Nat → List Char → List Char → List (List Char)
  | 0, _, _ => []
  | fuel + 1, rev, rest =>
      if valueLookbehind rev then
        let cap := rest.takeWhile (· != '\n')
        match cap, rest with
        | [], [] => [[]]
        | [], c :: rs => [] :: valueFindallAux fuel (c :: rev) rs
        | _ :: _, _ => cap :: valueFindallAux fuel (cap.reverse ++ rev) (rest.drop cap.length)
      else
        match rest with
        | [] => []
        | c :: rs => valueFindallAux fuel (c :: rev) rs

/-- Scan `valueFindallAux` from the beginning of the text. -/
def valueFindall (text : List Char) : List (List Char) :=
  valueFindallAux (text.length + 2) [] text

/-- String wrapper of `valueFindall`. -/
def valueFindallS (text : String) : List String :=
  (valueFindall text.data).map (⟨·⟩)

/-! ## `converter/parse.py` -/

/-- The literal sentinel used throughout the pipeline for missing data. -/
def sentinel : String := "Data not provided"

/-- Model of `re.search(r"(\./media/[^\s]+)", vals)`: the leftmost occurrence
of `./media/` followed by at least one non-whitespace character, captured
greedily. -/
def mediaPathSearch : List Char → Option (List Char)
  | [] => none
  | c :: cs =>
      if startsWithL "./media/".data (c :: cs) ∧
          ((c :: cs).drop 8).takeWhile (fun x => !pyWsChar x) ≠ [] then
        some ("./media/".data ++ ((c :: cs).drop 8).takeWhile (fun x => !pyWsChar x))
      else mediaPathSearch cs

/-- Model of `parse_media_url` (parse.py): only values containing the substring
`media` are touched; for those, an existing `./media/<name>` path is kept,
otherwise the text after the last `": "` separator is prefixed with
`./media/`. -/
def parse_media_url (vals : String) : String :=
  if strContainsL vals.data "media".data then
    match mediaPathSearch vals.data with
    | some m => ⟨m⟩
    | none => "./media/" ++ ⟨(splitOnL ": ".data vals.data).getLastD []⟩
  else vals

/-- Model of `parse_media_alt_text` (parse.py): first match of each of the three media
rules, with the sentinel on a miss.  Output mirrors the Python list of
single-key dicts as key/value pairs. -/
def parse_media_alt_text (all_text : String) : List (String × String) :=
  [("main_fig_alt_text",
      match fmS "Image text (alt): " all_text with
      | some v => v
      | none => sentinel),
   ("main_fig_author_name",
      match fmS "Author name: " all_text with
      | some v => v
      | none => sentinel),
   ("main_fig_author_URL",
      match restSearchS "Author URL:" all_text with
      | some v => v
      | none => sentinel)]

/-- Model of `parse_tag_information` (parse.py): first match of each of the four tag
rules, with the sentinel on a miss. -/
def parse_tag_information (all_text : String) : List (String × String) :=
  [("topic",
      match fmS "Topic: " all_text with
      | some v => v
      | none => sentinel),
   ("subtopic",
      match fmS "Subtopic: " all_text with
      | some v => v
      | none => sentinel),
   ("source",
      match fmS "Source: " all_text with
      | some v => v
      | none => sentinel),
   ("product_type",
      match restSearchS "Product Type:" all_text with
      | some v => v
      | none => sentinel)]

/-- One layer`s per-index record (`layer_data` in `parse_layer_information`):
the dict key `name{i}` is present iff the corresponding field list has an
`i`-th element, so each field is an `Option`. -/
structure LayerRec where
  layer_name : Option String := none
  stacCol : Option String := none
  layer_id : Option String := none
  layer_description : Option String := none
  units : Option String := none
  color_ramp_description : Option String := none
  color_stops : Option (List String) := none
  data_format : Option String := none
  projection : Option String := none
  legend_minimum : Option String := none
  legend_maximum : Option String := none
  legend_type : Option String := none
  colormap_name : Option String := none
  resampling : Option String := none
  rescale_min : Option String := none
  rescale_max : Option String := none
  deriving DecidableEq, Repr

/-- Cleanup of color-stop groups in `parse_layer_information`: split each
bracket group on commas, strip space, apostrophe and newline characters from
each item, drop empty items. -/
def colorGroupsS (text : String) : List (List String) :=
  (bracketFindall text.data).map (fun g =>
    (((splitOnCharL ',' g).map (pyStripSetL [' ', Char.ofNat 39, '\n'])).filter (· ≠ [])).map (⟨·⟩))

/-- Model of `parse_layer_information` (parse.py): sixteen independently extracted
match lists, recombined positionally; the number of layers is the number of
`Layer name:` matches, and a field whose list is too short is simply absent
from that layer`s record (the `except IndexError: pass`). -/
def parse_layer_information (all_text : String) : List LayerRec :=
  let layer_name := labelFindallS "Layer name: " all_text
  let stacCol := labelFindallS "stacCol: " all_text
  let layer_id := labelFindallS "Layer id: " all_text
  let layer_description := labelFindallS "Layer description: " all_text
  let unit := labelFindallS "Units: " all_text
  let color_ramp_description := labelFindallS "Color ramp description: " all_text
  let final_color_groups := colorGroupsS all_text
  let data_format := labelFindallS "Data format: " all_text
  let projection := labelFindallS "Projection: " all_text
  let legend_min := labelFindallS "Legend minimum: " all_text
  let legend_max := labelFindallS "Legend maximum: " all_text
  let legend_type := labelFindallS "Legend type: " all_text
  let colormap_name := labelFindallS "Colormap name: " all_text
  let resampling := labelFindallS "Resampling: " all_text
  let rescale_min := labelFindallS "Rescale minimum: " all_text
  let rescale_max := labelFindallS "Rescale maximum: " all_text
  (List.range layer_name.length).map (fun i =>
    { layer_name := layer_name[i]?
      stacCol := stacCol[i]?
      layer_id := layer_id[i]?
      layer_description := layer_description[i]?
      units := unit[i]?
      color_ramp_description := color_ramp_description[i]?
      color_stops := final_color_groups[i]?
      data_format := data_format[i]?
      projection := projection[i]?
      legend_minimum := legend_min[i]?
      legend_maximum := legend_max[i]?
      legend_type := legend_type[i]?
      colormap_name := colormap_name[i]?
      resampling := resampling[i]?
      rescale_min := rescale_min[i]?
      rescale_max := rescale_max[i]? })

/-- Model of `check_value_string_length` (parse.py). -/
def check_value_string_length (vals : String) : String :=
  if vals.length ≥ 1 then vals else sentinel

/-- Association-list get (Python `dict.get`, returning `none` on a miss). -/
def dictGet {α : Type} : List (String × α) → String → Option α
  | [], _ => none
  | (k, v) :: rest, key => if k = key then some v else dictGet rest key

/-- Association-list set (Python `dict[key] = value`: replace or append). -/
def dictSet {α : Type} : List (String × α) → String → α → List (String × α)
  | [], key, v => [(key, v)]
  | (k, w) :: rest, key, v =>
      if k = key then (key, v) :: rest else (k, w) :: dictSet rest key v

/-- The `table_0` dict: `media`, `tags` and `layers` have dedicated shapes,
every other header is stored as a scalar string.  Each element of `layers`
is one of Python`s single-key container dicts `{f"Layer{i}": layer_data}`,
kept as its (key, record) pair — the index `i` in the key restarts at 0 for
every `layers` row, so with several such rows the keys need not agree with a
container`s position in this list. -/
structure Table0 where
  media : List (String × String) := []
  tags : List (String × String) := []
  layers : List (String × LayerRec) := []
  scalars : List (String × String) := []
  deriving DecidableEq, Repr

/-- The `table_1` dict: `start_temporal_extent` / `end_temporal_extent` hold
scalar strings, every other key holds a list of strings. -/
structure Table1 where
  scalars : List (String × String) := []
  lists : List (String × List String) := []
  deriving DecidableEq, Repr

/-- The `table_2` dict: each key holds a one-element list of a single-pair
dict. -/
def Table2 : Type := List (String × List (String × String))

instance : DecidableEq Table2 := by unfold Table2; infer_instance

/-- A two-cell table row (`row.cells[0].text`, `row.cells[1].text`). -/
structure Row where
  c0 : String
  c1 : String
  deriving DecidableEq, Repr

/-- Model of `table_0_info` (parse.py): dispatch a table-0 row by header. -/
def table_0_info (row : Row) (header : String) (t0 : Table0) : Table0 :=
  if header = "media" then
    let all_text := parse_media_alt_text (pyStripS row.c1)
    let vals := parse_media_url (firstLineS (pyStripS row.c1))
    { t0 with media := t0.media ++ ("main_media_image", check_value_string_length vals) :: all_text }
  else if header = "tags" then
    { t0 with tags := t0.tags ++ parse_tag_information (pyStripS row.c1) }
  else if header = "layers" then
    -- each parsed record is appended as the single-key container dict
    -- `{f"Layer{i}": all_text[i]}`, with `i` counting from 0 within this row
    let all_text := parse_layer_information (pyStripS row.c1)
    { t0 with layers :=
        t0.layers ++ all_text.enum.map (fun p => ("Layer" ++ toString p.1, p.2)) }
  else
    { t0 with scalars :=
        dictSet t0.scalars header (check_value_string_length (firstLineS (pyStripS row.c1))) }

/-- Parse `\d{2}/\d{2}/\d{4}` at the head of the list; on success return the
ten matched characters and the rest. -/
def parseDateL (cs : List Char) : Option (List Char × List Char) :=
  match cs with
  | d1 :: d2 :: s1 :: d3 :: d4 :: s2 :: d5 :: d6 :: d7 :: d8 :: rest =>
      if d1.isDigit && d2.isDigit && s1 = '/' && d3.isDigit && d4.isDigit && s2 = '/' &&
          d5.isDigit && d6.isDigit && d7.isDigit && d8.isDigit &&
          -- `\d{2}/` fails when a third digit sits where `/` is required
          true then
        some ([d1, d2, s1, d3, d4, s2, d5, d6, d7, d8], rest)
      else none
  | _ => none

/-- Model of `re.findall(r"Start:\s*(\d{2}/\d{2}/\d{4})|End:\s*(\d{2}/\d{2}/\d{4})",
text, re.IGNORECASE)`: each element is the pair of the two capture groups
(`none` standing for an empty group). -/
def temporalFindallAux : Nat → List Char → List (Option String × Option String)
  | 0, _ => []
  | _ + 1, [] => []
  | fuel + 1, c :: cs =>
      if lowerL ((c :: cs).take 6) = "start:".data then
        match parseDateL (((c :: cs).drop 6).dropWhile pyWsChar) with
        | some (d, rest) => (some ⟨d⟩, none) :: temporalFindallAux fuel rest
        | none => temporalFindallAux fuel cs
      else if lowerL ((c :: cs).take 4) = "end:".data then
        match parseDateL (((c :: cs).drop 4).dropWhile pyWsChar) with
        | some (d, rest) => (none, some ⟨d⟩) :: temporalFindallAux fuel rest
        | none => temporalFindallAux fuel cs
      else temporalFindallAux fuel cs

/-- Scan `temporalFindallAux` with enough fuel. -/
def temporalFindall (text : String) : List (Option String × Option String) :=
  temporalFindallAux (text.data.length + 1) text.data

/-- Model of `parse_table_value_content` (parse.py): dispatch a table-1 row by header;
`content_source` falls back to table 0`s tag sources when the extracted value
is literally `null`. -/
def parse_table_value_content (row : Row) (header : String) (t0 : Table0) (t1 : Table1) :
    Table1 :=
  let all_text := check_value_string_length (pyStripS row.c1)
  if header = "content_source" then
    let extracted_values := valueFindallS all_text
    match extracted_values with
    | v :: _ =>
        if pyLowerS v = "null" then
          let source_values := t0.tags.filterMap (fun kv =>
            if kv.1 = "source" then some kv.2 else none)
          { t1 with lists :=
              dictSet t1.lists header (if source_values ≠ [] then source_values else [sentinel]) }
        else
          { t1 with lists := dictSet t1.lists header extracted_values }
    | [] => { t1 with lists := dictSet t1.lists header [sentinel] }
  else if header = "temporal_extent" then
    let found := temporalFindall all_text
    let start_value := (found.filterMap (·.1)).head?
    let end_value := (found.filterMap (·.2)).head?
    let scalars1 := dictSet t1.scalars "start_temporal_extent" (start_value.getD sentinel)
    let scalars2 := dictSet scalars1 "end_temporal_extent" (end_value.getD sentinel)
    { t1 with scalars := scalars2 }
  else if header = "legend_value_range" then
    t1
  else
    let match_value_names := valueFindallS all_text
    let stored := if match_value_names ≠ [] then match_value_names else [sentinel]
    { t1 with lists := dictSet t1.lists header stored }

/-- Inner scan for the table-2 row pattern: find the leftmost `Value:` whose
immediately preceding whitespace run contains a newline (the `\s*\n+\s*` gap
demanded by `Header:\s*(.*?)\s*\n+\s*Value:\s*(.*)` under `re.DOTALL`); both
groups are returned already stripped, as the caller strips them. -/
def hvInnerAux : Nat → List Char → List Char → Option (String × String)
  | 0, _, _ => none
  | _ + 1, _, [] => none
  | fuel + 1, pre, c :: cs =>
      -- `pre` holds the consumed prefix in reverse, so its `takeWhile` is the
      -- whitespace run immediately before the current position
      if startsWithL "Value:".data (c :: cs) ∧ '\n' ∈ pre.takeWhile pyWsChar then
        some (⟨pyStripL pre.reverse⟩, ⟨pyStripL ((c :: cs).drop 6)⟩)
      else hvInnerAux fuel (c :: pre) cs

/-- Outer scan for the table-2 row pattern: leftmost `Header:` (case
sensitive) that allows an inner match. -/
def hvOuterAux : Nat → List Char → Option (String × String)
  | 0, _ => none
  | _ + 1, [] => none
  | fuel + 1, c :: cs =>
      if startsWithL "Header:".data (c :: cs) then
        match hvInnerAux ((c :: cs).length + 1) [] ((c :: cs).drop 7) with
        | some r => some r
        | none => hvOuterAux fuel cs
      else hvOuterAux fuel cs

/-- Model of `re.search(r"Header:\s*(.*?)\s*\n+\s*Value:\s*(.*)", text,
re.DOTALL)` followed by `.strip()` of both groups. -/
def headerValueSearch (text : String) : Option (String × String) :=
  hvOuterAux (text.data.length + 1) text.data

/-- Model of `parse_additional_table_info` (parse.py). -/
def parse_additional_table_info (row : Row) (header : String) (t2 : Table2) : Table2 :=
  let all_text := check_value_string_length (pyStripS row.c1)
  match headerValueSearch all_text with
  | some (h, v) =>
      if h.length ≠ 0 ∧ v.length ≠ 0 then dictSet t2 header [(h, v)] else t2
  | none => t2

/-- The three table dicts built by `extract_table_info_from_docx`. -/
structure DocState where
  t0 : Table0 := {}
  t1 : Table1 := {}
  t2 : Table2 := []
  deriving DecidableEq

/-- The row header: first cell, stripped, lower-cased, first line. -/
def rowHeaderS (c0 : String) : String := firstLineS (pyLowerS (pyStripS c0))

/-- The fatal message raised on an empty header with a non-empty value. -/
def emptyHeaderMsg : String :=
  "Header is empty. Please check the template document and ensure all expected headers are present and not empty."

/-- One iteration of the row loop in `extract_table_info_from_docx`: skip a
fully empty row, raise on an empty header with content, otherwise dispatch on
the table index. -/
def processRowStep (iTable : Nat) (row : Row) (st : DocState) : Except String DocState :=
  let header := rowHeaderS row.c0
  if header = "" ∧ pyStripS row.c1 = "" then .ok st
  else if header = "" then .error emptyHeaderMsg
  else .ok (match iTable with
    | 0 => { st with t0 := table_0_info row header st.t0 }
    | 1 => { st with t1 := parse_table_value_content row header st.t0 st.t1 }
    | 2 => { st with t2 := parse_additional_table_info row header st.t2 }
    | _ => st)

/-- The row loop of `extract_table_info_from_docx` over one table. -/
def processRows (iTable : Nat) : List Row → DocState → Except String DocState
  | [], st => .ok st
  | r :: rs, st =>
      match processRowStep iTable r st with
      | .error e => .error e
      | .ok st2 => processRows iTable rs st2

/-- The table loop of `extract_table_info_from_docx`. -/
def processTables : Nat → List (List Row) → DocState → Except String DocState
  | _, [], st => .ok st
  | i, t :: ts, st =>
      match processRows i t st with
      | .error e => .error e
      | .ok st2 => processTables (i + 1) ts st2

/-- Model of `extract_table_info_from_docx` (parse.py): fold the three (or more)
tables of the document, starting from empty dicts. -/
def extract_table_info_from_docx (tables : List (List Row)) : Except String DocState :=
  processTables 0 tables {}

/-! ## `converter/verify.py` -/

/-- The closed colormap enumeration of `check_if_colormap_is_valid`
(verify.py).  The Python list additionally contains `None`, which can never
equal the string arguments passed from `construct_non_prose_section`, so only
the string members are modelled. -/
def valid_colors : List String :=
  ["accent", "accent_r", "afmhot", "afmhot_r", "autumn", "autumn_r", "binary", "binary_r",
   "blues", "blues_r", "bone", "bone_r", "brbg", "brbg_r", "brg", "brg_r", "bugn", "bugn_r",
   "bupu", "bupu_r", "bwr", "bwr_r", "cfastie", "cividis", "cividis_r", "cmrmap", "cmrmap_r",
   "cool", "cool_r", "coolwarm", "coolwarm_r", "copper", "copper_r", "cubehelix",
   "cubehelix_r", "dark2", "dark2_r", "flag", "flag_r", "gist_earth", "gist_earth_r",
   "gist_gray", "gist_gray_r", "gist_heat", "gist_heat_r", "gist_ncar", "gist_ncar_r",
   "gist_rainbow", "gist_rainbow_r", "gist_stern", "gist_stern_r", "gist_yarg", "gist_yarg_r",
   "gnbu", "gnbu_r", "gnuplot", "gnuplot2", "gnuplot2_r", "gnuplot_r", "gray", "gray_r",
   "greens", "greens_r", "greys", "greys_r", "hot", "hot_r", "hsv", "hsv_r", "inferno",
   "inferno_r", "jet", "jet_r", "magma", "magma_r", "nipy_spectral", "nipy_spectral_r",
   "ocean", "ocean_r", "oranges", "oranges_r", "orrd", "orrd_r", "paired", "paired_r",
   "pastel1", "pastel1_r", "pastel2", "pastel2_r", "pink", "pink_r", "piyg", "piyg_r",
   "plasma", "plasma_r", "prgn", "prgn_r", "prism", "prism_r", "pubu", "pubu_r", "pubugn",
   "pubugn_r", "puor", "puor_r", "purd", "purd_r", "purples", "purples_r", "rainbow",
   "rainbow_r", "rdbu", "rdbu_r", "rdgy", "rdgy_r", "rdpu", "rdpu_r", "rdylbu", "rdylbu_r",
   "rdylgn", "rdylgn_r", "reds", "reds_r", "rplumbo", "schwarzwald", "seismic", "seismic_r",
   "set1", "set1_r", "set2", "set2_r", "set3", "set3_r", "spectral", "spectral_r", "spring",
   "spring_r", "summer", "summer_r", "tab10", "tab10_r", "tab20", "tab20_r", "tab20b",
   "tab20b_r", "tab20c", "tab20c_r", "terrain", "terrain_r", "twilight", "twilight_r",
   "twilight_shifted", "twilight_shifted_r", "viridis", "viridis_r", "winter", "winter_r",
   "wistia", "wistia_r", "ylgn", "ylgn_r", "ylgnbu", "ylgnbu_r", "ylorbr", "ylorbr_r",
   "ylorrd", "ylorrd_r"]

/-- Python `repr` of the colormap list, as interpolated into the error
message (the final `None` element included). -/
def validColorsRepr : String :=
  "[" ++ String.intercalate ", " (valid_colors.map (fun x => "\x27" ++ x ++ "\x27")) ++
    ", None]"

/-- Model of `check_if_colormap_is_valid` (verify.py): membership is Python `in`, an
exact, case-sensitive comparison; failures raise a `ValueError` that embeds
the offending value and the enumeration. -/
def check_if_colormap_is_valid (colormap : String) : Except String String :=
  if colormap ∈ valid_colors then .ok colormap
  else .error ("Invalid colormap: " ++ colormap ++
    ". \n\nPlease choose from the list of " ++ validColorsRepr ++ ".")

/-- The closed projection enumeration of `check_if_projection_is_valid`
(verify.py). -/
def valid_projection : List String :=
  ["albers", "equalEarth", "equirectangular", "lambertConformalConic", "mercator",
   "naturalEarth", "winkelTripel", "globe", "polarNorth", "polarSouth"]

/-- Python `repr` of the projection list as interpolated into the error
message. -/
def validProjectionRepr : String :=
  "[" ++ String.intercalate ", " (valid_projection.map (fun x => "\x27" ++ x ++ "\x27")) ++
    "]"

/-- Model of `check_if_projection_is_valid` (verify.py). -/
def check_if_projection_is_valid (projection : String) : Except String String :=
  if projection ∈ valid_projection then .ok projection
  else .error ("Invalid projection: " ++ projection ++
    ". Please choose from the list of " ++ validProjectionRepr ++ ".")

/-! ## `converter/utils.py`: `color_converter` -/

/-- A value returned by `color_converter`: either an RGB tuple or a string. -/
inductive PyColor where
  | rgbTup (r g b : Nat)
  | strVal (s : String)
  deriving DecidableEq, Repr

/-- Digits of a character run interpreted as a decimal number. -/
def decimalOf (ds : List Char) : Nat :=
  ds.foldl (fun acc c => acc * 10 + (c.toNat - 48)) 0

/-- Match one `\d{1,3}` group followed by the given terminator character,
starting at the head of the list; `\d{1,3}` is greedy but its backtracking
can only succeed when the maximal digit run has length 1 to 3 and is followed
by the terminator.  Returns the numeric value and the text after the
terminator. -/
def rgbGroup (term : Char) (cs : List Char) : Option (Nat × List Char) :=
  let ds := cs.takeWhile Char.isDigit
  if ds.length ≥ 1 ∧ ds.length ≤ 3 ∧ startsWithL [term] (cs.drop ds.length) then
    some (decimalOf ds, cs.drop (ds.length + 1))
  else none

/-- Model of `re.match(r"rgb\((\d{1,3}),\s*(\d{1,3}),\s*(\d{1,3})\)", color)`:
anchored at the start of the string, trailing text after `)` permitted. -/
def rgbMatch (color : String) : Option (Nat × Nat × Nat) :=
  let cs := color.data
  if startsWithL "rgb(".data cs then
    match rgbGroup ',' (cs.drop 4) with
    | some (r, rest1) =>
        match rgbGroup ',' (rest1.dropWhile pyWsChar) with
        | some (g, rest2) =>
            match rgbGroup ')' (rest2.dropWhile pyWsChar) with
            | some (b, _) => some (r, g, b)
            | none => none
        | none => none
    | none => none
  else none

/-- An uppercase hexadecimal digit of a value below 16. -/
def hexDigit (n : Nat) : Char :=
  if n < 10 then Char.ofNat (48 + n) else Char.ofNat (55 + n)

/-- Python zero-padded uppercase hex formatting of a natural number, width at least two. -/
def hexPad2 (n : Nat) : String :=
  if n < 16 then ⟨['0', hexDigit n]⟩
  else if n < 256 then ⟨[hexDigit (n / 16), hexDigit (n % 16)]⟩
  else ⟨[hexDigit (n / 256 % 16), hexDigit (n / 16 % 16), hexDigit (n % 16)]⟩

/-- Value of an uppercase hexadecimal digit character. -/
def hexVal (c : Char) : Nat :=
  if c.isDigit then c.toNat - 48 else c.toNat - 55

/-- Characters accepted by the hex branch of `color_converter`. -/
def isHexUpper (c : Char) : Bool :=
  c.isDigit || (c = 'A' || c = 'B' || c = 'C' || c = 'D' || c = 'E' || c = 'F')

/-- Model of `color_converter` (utils.py) for string inputs (the tuple branch of the
source is unreachable from `construct_non_prose_section`, which always passes
`str(stop_color)`): try the `rgb(r,g,b)` pattern, then the six-digit hex
form after stripping leading `#` and upper-casing; anything else raises. -/
def color_converter (color : String) (hex_or_rgb : String) : Except String PyColor :=
  match rgbMatch color with
  | some (r, g, b) =>
      if hex_or_rgb = "rgb" then .ok (.rgbTup r g b)
      else .ok (.strVal ("#" ++ hexPad2 r ++ hexPad2 g ++ hexPad2 b))
  | none =>
      let hex_color_str := upperL (color.data.dropWhile (· = '#'))
      if hex_color_str.length = 6 ∧ hex_color_str.all isHexUpper then
        if hex_or_rgb = "hex" then .ok (.strVal ⟨'#' :: hex_color_str⟩)
        else
          .ok (.rgbTup (hexVal (hex_color_str.getD 0 '0') * 16 + hexVal (hex_color_str.getD 1 '0'))
            (hexVal (hex_color_str.getD 2 '0') * 16 + hexVal (hex_color_str.getD 3 '0'))
            (hexVal (hex_color_str.getD 4 '0') * 16 + hexVal (hex_color_str.getD 5 '0')))
      else
        .error "Invalid color format. Must be RGB (rgb(R,G,B) or (R,G,B)) or HEX (#RRGGBB or RRGGBB)"

/-! ## `converter/prose.py` -/

/-- A Python float as produced by `float(...)`: a finite value (kept exact as
a rational), an infinity, or a NaN. -/
inductive PyFloatVal where
  | num (q : ℚ)
  | inf (neg : Bool)
  | nan
  deriving DecidableEq, Repr

/-- Exponent suffix of a float literal: optional sign then at least one
digit, which must exhaust the input. -/
def expParse (cs : List Char) : Option Int :=
  let signed : Bool × List Char :=
    match cs with
    | '+' :: t => (false, t)
    | '-' :: t => (true, t)
    | t => (false, t)
  let ds := signed.2.takeWhile Char.isDigit
  if ds ≠ [] ∧ signed.2.drop ds.length = [] then
    some (if signed.1 then -(decimalOf ds : Int) else (decimalOf ds : Int))
  else none

/-- Model of Python `float(s)` for an already-stripped string: optional sign,
then `inf`/`infinity`/`nan` (case-insensitive) or a decimal literal
`digits[.digits][e[+-]digits]` with at least one digit in the mantissa.
(Underscore digit separators, legal in CPython, are not modelled; no input in
this pipeline contains them.) -/
def pyFloatParse (s : String) : Option PyFloatVal :=
  let signed : Bool × List Char :=
    match s.data with
    | '+' :: t => (false, t)
    | '-' :: t => (true, t)
    | t => (false, t)
  let body := signed.2
  if lowerL body = "inf".data ∨ lowerL body = "infinity".data then some (.inf signed.1)
  else if lowerL body = "nan".data then some .nan
  else
    let ip := body.takeWhile Char.isDigit
    let r1 := body.drop ip.length
    let fpr : List Char × List Char :=
      match r1 with
      | '.' :: t => (t.takeWhile Char.isDigit, (t.takeWhile Char.isDigit).length |> t.drop)
      | _ => ([], r1)
    let fp := fpr.1
    let r2 := fpr.2
    if ip = [] ∧ fp = [] then none
    else
      let mant : ℚ := (decimalOf ip : ℚ) + (decimalOf fp : ℚ) / ((10 : ℚ) ^ fp.length)
      match r2 with
      | [] => some (.num (if signed.1 then -mant else mant))
      | c :: t =>
          if c.toLower = 'e' then
            match expParse t with
            | some e =>
                let v := mant * (10 : ℚ) ^ e
                some (.num (if signed.1 then -v else v))
            | none => none
          else none

/-- Model of `safe_float` (prose.py, inner helper of `construct_non_prose_section`)
for string-or-absent inputs (the numeric `isinstance` branch is unreachable:
every value handed to it comes from a regex capture and is a string):
placeholder strings coerce to an explicit absent marker, anything else is
parsed as a float, with `none` on failure. -/
def safe_float (value : Option String) : Option PyFloatVal :=
  match value with
  | none => none
  | some v =>
      let cleaned := pyLowerS (pyStripS v)
      if cleaned ≠ "" ∧ cleaned ∉ ["data not provided", "none", "null", ""] then
        pyFloatParse (pyStripS v)
      else none

/-- Model of `get_str_val_or_none` (prose.py): a truthy, non-placeholder string is
returned stripped, anything else becomes `none`. -/
def cleanStrVal : Option String → Option String
  | none => none
  | some v =>
      if v ≠ "" ∧ pyLowerS (pyStripS v) ∉ ["data not provided", "none", "null", ""] then
        some (pyStripS v)
      else none

/-- The `author` sub-record of the media block. -/
structure AuthorBlock where
  name : String
  url : String
  deriving DecidableEq, Repr

/-- The media block of the frontmatter (`_build_media_block`): `src` defaults
to `None`, the other fields default to the sentinel. -/
structure MediaBlock where
  src : Option String
  alt : String
  author : AuthorBlock
  deriving DecidableEq, Repr

/-- One step of the item loop in `_build_media_block`: each of the four keys
is checked for a truthy value, later items overriding earlier ones. -/
def mediaStep (acc : MediaBlock) (item : String × String) : MediaBlock :=
  let acc := if item.1 = "main_media_image" ∧ item.2 ≠ "" then
    { acc with src := some ("::file " ++ item.2) } else acc
  let acc := if item.1 = "main_fig_alt_text" ∧ item.2 ≠ "" then
    { acc with alt := item.2 } else acc
  let acc := if item.1 = "main_fig_author_name" ∧ item.2 ≠ "" then
    { acc with author := { acc.author with name := item.2 } } else acc
  if item.1 = "main_fig_author_URL" ∧ item.2 ≠ "" then
    { acc with author := { acc.author with url := item.2 } } else acc

/-- Model of `_build_media_block` (prose.py). -/
def build_media_block (media_data_list : List (String × String)) : MediaBlock :=
  media_data_list.foldl mediaStep
    { src := none, alt := sentinel, author := { name := sentinel, url := sentinel } }

/-- Python `",".join(map(str, x))` for a `color_converter` result: an RGB
tuple joins its components; a string (unreachable in `rgb` mode) would join
its characters. -/
def joinCommaStr : PyColor → String
  | .rgbTup r g b => toString r ++ "," ++ toString g ++ "," ++ toString b
  | .strVal s => String.intercalate "," (s.data.map (fun c => ⟨[c]⟩))

/-- A `color_converter` result appended verbatim in `hex` mode (an RGB tuple,
unreachable there, is rendered as Python`s `str(tuple)`). -/
def pyColorAsStop : PyColor → String
  | .strVal s => s
  | .rgbTup r g b => "(" ++ toString r ++ ", " ++ toString g ++ ", " ++ toString b ++ ")"

/-- One color stop of the stops loop in `construct_non_prose_section`:
placeholders are skipped, and a stop whose conversion raises `ValueError` is
caught, warned about, and skipped — it does not abort the document. -/
def stopStep (hex_or_rgb : String) (stop_color : String) : Option String :=
  if stop_color = "" ∨ pyLowerS (pyStripS stop_color) ∈ ["data not provided", "none", "null", ""] then
    none
  else if hex_or_rgb = "rgb" then
    match color_converter stop_color "rgb" with
    | .ok c => some ("rgb(" ++ joinCommaStr c ++ ")")
    | .error _ => none
  else
    match color_converter stop_color "hex" with
    | .ok c => some (pyColorAsStop c)
    | .error _ => none

/-- The processed color stops of one layer. -/
def processStops (hex_or_rgb : String) (stops : List String) : List String :=
  stops.filterMap (stopStep hex_or_rgb)

/-- The `sourceParams` dict of one layer. -/
structure SourceParams where
  colormap_name : Option String := none
  resampling : Option String := none
  rescale : Option (PyFloatVal × PyFloatVal) := none
  deriving DecidableEq, Repr

/-- The `colormap_name` entry of `source_params`: a truthy, non-placeholder
value is validated (a fatal error propagates), otherwise the key is absent. -/
def colormapParamOf (l : LayerRec) : Except String (Option String) :=
  match cleanStrVal l.colormap_name with
  | none => .ok none
  | some s => (check_if_colormap_is_valid s).map some

/-- Assembly of `source_params` in `construct_non_prose_section`: the
colormap is validated (a fatal error propagates), `rescale` appears only when
both bounds parse. -/
def sourceParamsOf (l : LayerRec) : Except String SourceParams := do
  let cm : Option String ← colormapParamOf l
  let rmin := safe_float l.rescale_min
  let rmax := safe_float l.rescale_max
  pure { colormap_name := cm
         resampling := cleanStrVal l.resampling
         rescale := match rmin, rmax with
           | some a, some b => some (a, b)
           | _, _ => none }

/-- Python truthiness of the `source_params` dict. -/
def spNonempty (sp : SourceParams) : Bool :=
  sp.colormap_name.isSome || sp.resampling.isSome || sp.rescale.isSome

/-- The `legend_dict` of one layer. -/
structure LegendDict where
  unit : Option String := none
  type : Option String := none
  min : Option PyFloatVal := none
  max : Option PyFloatVal := none
  stops : Option (List String) := none
  deriving DecidableEq, Repr

/-- Assembly of `legend_dict` in `construct_non_prose_section`: `min`/`max`
are attached only inside the `legend_type_str == 'gradient'` branch, and then
only when `safe_float` produced a value. -/
def legendDictOf (hex_or_rgb : String) (l : LayerRec) : LegendDict :=
  let d0 : LegendDict := {}
  let d1 := match cleanStrVal l.units with
    | some u => { d0 with unit := some u }
    | none => d0
  let d2 := match cleanStrVal l.legend_type with
    | some t =>
        if t = "gradient" then
          { d1 with type := some t, min := safe_float l.legend_minimum,
                    max := safe_float l.legend_maximum }
        else { d1 with type := some t }
    | none => d1
  let color_stops_data := l.color_stops.getD []
  if color_stops_data ≠ [] then
    let processed := processStops hex_or_rgb color_stops_data
    if processed ≠ [] then { d2 with stops := some processed } else d2
  else d2

/-- Python truthiness of the `legend_dict`. -/
def legendNonempty (d : LegendDict) : Bool :=
  d.unit.isSome || d.type.isSome || d.min.isSome || d.max.isSome || d.stops.isSome

/-- The `projection_dict` of one layer: its validated `id`, if any (a fatal
error propagates). -/
def projectionOf (l : LayerRec) : Except String (Option String) :=
  match cleanStrVal l.projection with
  | none => .ok none
  | some s => (check_if_projection_is_valid s).map some

/-- Python `list[0]`, raising `IndexError` on an empty list. -/
def pyIndex0 : List String → Except String String
  | [] => .error "IndexError: list index out of range"
  | x :: _ => .ok x

/-- The `info` dict of one layer. -/
structure InfoBlock where
  source : String
  spatialExtent : String
  temporalResolution : String
  unit : String
  deriving DecidableEq, Repr

/-- Assembly of the `info` dict from `table_1`. -/
def infoOf (t1 : Table1) : Except String InfoBlock := do
  let s ← pyIndex0 ((dictGet t1.lists "content_source").getD [sentinel])
  let sp ← pyIndex0 ((dictGet t1.lists "spatial_extent").getD [sentinel])
  let tr ← pyIndex0 ((dictGet t1.lists "temporal_resolution").getD [sentinel])
  let du ← pyIndex0 ((dictGet t1.lists "data_units").getD [sentinel])
  pure { source := pyStripS s, spatialExtent := pyStripS sp,
         temporalResolution := pyStripS tr, unit := pyStripS du }

/-- The fixed compare-mode map label (`MAP_LABEL_JS_CODE` in prose.py). -/
def MAP_LABEL_JS_CODE : String :=
  "::js (\x7b dateFns, datetime, compareDatetime \x7d) => \x7b\nreturn `$\x7bdateFns.format(datetime, \x27LLL yyyy\x27)\x7d VS $\x7bdateFns.format(compareDatetime, \x27LLL yyyy\x27)\x7d`;\n\x7d"

/-- The `compare` sub-record of a layer. -/
structure CompareBlock where
  datasetId : String
  layerId : String
  mapLabel : String
  deriving DecidableEq, Repr

/-- One cleaned layer record as appended to `output["layers"]`: keys whose
value was `None`, `""` or an empty dict are absent, which the `Option` fields
encode; the always-present constant fields survive cleaning unconditionally. -/
structure AssembledLayer where
  id : String
  stacCol : Option String
  stacApiEndpoint : String
  name : Option String
  type : Option String
  description : Option String
  initialDatetime : String
  zoomExtent : List Nat
  compare : CompareBlock
  info : InfoBlock
  mediaSrc : String
  mediaAlt : String
  sourceParams : Option SourceParams
  legend : Option LegendDict
  projection : Option String
  deriving DecidableEq, Repr

/-- Python falsiness of `actual_layer_data` (an empty per-layer dict). -/
def layerRecIsEmpty (l : LayerRec) : Bool :=
  l.layer_name.isNone && l.stacCol.isNone && l.layer_id.isNone &&
  l.layer_description.isNone && l.units.isNone && l.color_ramp_description.isNone &&
  l.color_stops.isNone && l.data_format.isNone && l.projection.isNone &&
  l.legend_minimum.isNone && l.legend_maximum.isNone && l.legend_type.isNone &&
  l.colormap_name.isNone && l.resampling.isNone && l.rescale_min.isNone &&
  l.rescale_max.isNone

/-- The cleaned layer record behind the final id gate: the layer is appended
iff its cleaned `id` is present (`if layer_to_append_cleaned.get("id")`), and
the `compare.layerId` fallback to the dataset id can only leave the present
id in the appended record. -/
def finalizeLayer (dsId : String) (t1info : InfoBlock) (sp : SourceParams)
    (legend : LegendDict) (proj : Option String) (l : LayerRec) : Option AssembledLayer :=
  (cleanStrVal l.layer_id).map (fun lid =>
    { id := lid
      stacCol := cleanStrVal l.stacCol
      stacApiEndpoint := "https://dev.openveda.cloud/api/stac"
      name := cleanStrVal l.layer_name
      type := cleanStrVal l.data_format
      description := cleanStrVal l.layer_description
      initialDatetime := "newest"
      zoomExtent := [0, 20]
      compare := { datasetId := dsId, layerId := lid, mapLabel := MAP_LABEL_JS_CODE }
      info := t1info
      mediaSrc := "::file <INSERT MANUALLY>"
      mediaAlt := "<INSERT MANUALLY>"
      sourceParams := if spNonempty sp then some sp else none
      legend := if legendNonempty legend then some legend else none
      projection := proj })

/-- The body of one layer-loop iteration of `construct_non_prose_section`
once `actual_layer_data` is in hand: `ok none` when that dict is falsy (the
`if not actual_layer_data: continue`, an empty dict here) or when the final
id gate drops the layer, `ok (some _)` when it is appended, `error` when
colormap/projection validation or an `IndexError` aborts the document.  The
positional `layer_container_dict.get(f"Layer{i}")` lookup that produces
`actual_layer_data` — whose `None` result is the other falsy case — is
modelled by `assembleContainer` below. -/
def assembleMaybe (hex_or_rgb dsId : String) (t1 : Table1) (l : LayerRec) :
    Except String (Option AssembledLayer) :=
  if layerRecIsEmpty l then .ok none
  else do
    let sp ← sourceParamsOf l
    let legend := legendDictOf hex_or_rgb l
    let proj ← projectionOf l
    let info ← infoOf t1
    pure (finalizeLayer dsId info sp legend proj l)

/-- Python `layer_container_dict.get(f"Layer{i}")` for a single-key container
dict: the stored record, provided the container`s key is `Layer{i}` for the
loop`s enumerate index `i`. -/
def containerGet (i : Nat) (c : String × LayerRec) : Option LayerRec :=
  if c.1 = "Layer" ++ toString i then some c.2 else none

/-- One full layer-loop iteration of `construct_non_prose_section` at
enumerate index `i`: look the record up under `Layer{i}` and run the loop
body; a failed lookup (`None`, falsy) makes the loop `continue`, silently
skipping the container whatever it holds. -/
def assembleContainer (hex_or_rgb dsId : String) (t1 : Table1) (i : Nat)
    (c : String × LayerRec) : Except String (Option AssembledLayer) :=
  match containerGet i c with
  | none => .ok none
  | some l => assembleMaybe hex_or_rgb dsId t1 l

/-- An indexed container survives the loop`s lookup-and-gate: its key
matches `Layer{i}` at its enumerate position and the found record`s cleaned
id is present. -/
def containerIncluded : Nat × (String × LayerRec) → Bool
  | (i, c) =>
      match containerGet i c with
      | none => false
      | some l => (cleanStrVal l.layer_id).isSome

/-- The layer loop of `construct_non_prose_section` over the parsed layer
containers, carrying the enumerate index. -/
def constructLayers (hex_or_rgb dsId : String) (t1 : Table1) :
    Nat → List (String × LayerRec) → Except String (List AssembledLayer)
  | _, [] => .ok []
  | i, c :: cs => do
      let r ← assembleContainer hex_or_rgb dsId t1 i c
      let rest ← constructLayers hex_or_rgb dsId t1 (i + 1) cs
      pure (match r with
        | some a => a :: rest
        | none => rest)

/-- Model of `main_dataset_id` in `construct_non_prose_section`:
`str(table_0.get("id","")).strip()`. -/
def mainDatasetId (t0 : Table0) : String :=
  pyStripS ((dictGet t0.scalars "id").getD "")

/-- The `media` field of the frontmatter output:
`_build_media_block(table_0.get("media", []))`. -/
def constructMediaBlock (t0 : Table0) : MediaBlock :=
  build_media_block t0.media

/-- The `layers` field of the frontmatter output: the loop enumerates
`table_0.get("layers", [])` from index 0. -/
def constructLayersOf (hex_or_rgb : String) (t0 : Table0) (t1 : Table1) :
    Except String (List AssembledLayer) :=
  constructLayers hex_or_rgb (mainDatasetId t0) t1 0 t0.layers

/-! ## Helper lemmas -/

/-- Elimination of a successful `Except` bind. -/
theorem bindEqOk {ε α β : Type} {e : Except ε α} {f : α → Except ε β} {b : β}
    (h : e >>= f = .ok b) : ∃ a, e = .ok a ∧ f a = .ok b := by
  cases e with
  | error err => simp [Bind.bind, Except.bind] at h
  | ok a => exact ⟨a, rfl, by simpa [Bind.bind, Except.bind] using h⟩

/-- A key just written into an association list is read back. -/
theorem dictGet_dictSet {α : Type} (d : List (String × α)) (k : String) (v : α) :
    dictGet (dictSet d k v) k = some v := by
  induction d with
  | nil => simp [dictSet, dictGet]
  | cons kv rest ih =>
      obtain ⟨k1, v1⟩ := kv
      by_cases h : k1 = k
      · subst h
        simp [dictSet, dictGet]
      · simp [dictSet, dictGet, h, ih]

/-! ## Claim theorems -/

/-- Claim C1 (code_bug evaluation): running the table-0 `media` row of the
spec scenario through the extractor and `build_media_block` yields
`src = "::file Image: photo.png"`, not the specified
`"::file ./media/photo.png"` — `parse_media_url` leaves the value untouched
because it only rewrites values containing the substring `media`, against
its own docstring; alt text and author fields come out as specified. -/
theorem c1_media_scenario_bug :
    parse_media_url "Image: photo.png" = "Image: photo.png" ∧
    (extract_table_info_from_docx
        [[⟨"Media", "Image: photo.png\nImage text (alt): A glacier\nAuthor name: J. Doe\nAuthor URL: https://x.org"⟩]]).map
        (fun st => constructMediaBlock st.t0) =
      .ok { src := some "::file Image: photo.png", alt := "A glacier",
            author := { name := "J. Doe", url := "https://x.org" } } ∧
    ("::file Image: photo.png" : String) ≠ "::file ./media/photo.png" := by
  refine ⟨rfl, rfl, by decide⟩

/-- Claim C2, counterexample: the token `banana` is unparseable (the
converter raises), yet assembling a record containing it succeeds — the
conversion is not aborted and the token is silently dropped (no `stops`,
hence no legend at all, survives). -/
theorem c2_counterexample :
    (∃ e, color_converter "banana" "rgb" = .error e) ∧
    (∃ al, assembleMaybe "rgb" "ds" {} { layer_id := some "layer-x", color_stops := some ["banana"] } =
        .ok (some al) ∧ al.legend = none) := by
  exact ⟨⟨_, rfl⟩, ⟨_, rfl, rfl⟩⟩

/-- Claim C2, amended: a color-stop token on which `color_converter` raises
is caught and skipped by the stops loop of `construct_non_prose_section`; the
processed stops are exactly those of the same list without the token. -/
theorem c2_amended : ∀ (hex_or_rgb : String) (s1 s2 : List String) (tok : String),
    (∃ e, color_converter tok (if hex_or_rgb = "rgb" then "rgb" else "hex") = .error e) →
    processStops hex_or_rgb (s1 ++ tok :: s2) = processStops hex_or_rgb (s1 ++ s2) := by
  intro m s1 s2 tok he
  obtain ⟨e, he⟩ := he
  have hnone : stopStep m tok = none := by
    unfold stopStep
    by_cases hp : tok = "" ∨ pyLowerS (pyStripS tok) ∈ ["data not provided", "none", "null", ""]
    · rw [if_pos hp]
    · rw [if_neg hp]
      by_cases hm : m = "rgb"
      · rw [if_pos hm]
        rw [hm, if_pos rfl] at he
        rw [he]
      · rw [if_neg hm]
        rw [if_neg hm] at he
        rw [he]
  unfold processStops
  rw [List.filterMap_append, List.filterMap_append, List.filterMap_cons, hnone]

/-- Claim C2, amended, witness at `tok = "banana"`. -/
theorem c2_amended_witness :
    processStops "rgb" ["banana", "#FF0000"] = processStops "rgb" ["#FF0000"] := by
  have h := c2_amended "rgb" [] ["#FF0000"] "banana"
    ⟨"Invalid color format. Must be RGB (rgb(R,G,B) or (R,G,B)) or HEX (#RRGGBB or RRGGBB)",
     by rfl⟩
  simpa using h

/-- Claim C3, counterexample: a layer whose legend type is exactly
`gradient` but whose minimum and maximum are absent produces a legend block
with a `type` key and no `min`/`max` keys, refuting the claimed
"if and only if"; the categorical scenario of the claim does hold. -/
theorem c3_counterexample :
    (legendDictOf "rgb" { legend_type := some "gradient" }).type = some "gradient" ∧
    (legendDictOf "rgb" { legend_type := some "gradient" }).min = none ∧
    (legendDictOf "rgb" { legend_type := some "gradient" }).max = none ∧
    (legendDictOf "rgb" { legend_type := some "categorical", legend_minimum := some "5" }).min = none ∧
    (legendDictOf "rgb" { legend_type := some "categorical", legend_minimum := some "5" }).max = none := by
  exact ⟨rfl, rfl, rfl, rfl, rfl⟩

/-- Claim C3, amended: `min` (resp. `max`) appears in the legend block iff
the cleaned legend type is exactly `gradient` and `safe_float` of the
corresponding raw value produced a number. -/
theorem c3_amended : ∀ (hex_or_rgb : String) (l : LayerRec),
    ((legendDictOf hex_or_rgb l).min.isSome ↔
      (cleanStrVal l.legend_type = some "gradient" ∧ (safe_float l.legend_minimum).isSome)) ∧
    ((legendDictOf hex_or_rgb l).max.isSome ↔
      (cleanStrVal l.legend_type = some "gradient" ∧ (safe_float l.legend_maximum).isSome)) := by
  intro m l
  unfold legendDictOf
  cases ht : cleanStrVal l.legend_type with
  | none =>
      simp only [ht]
      cases hu : cleanStrVal l.units <;>
        simp [apply_ite LegendDict.min, apply_ite LegendDict.max]
  | some t =>
      by_cases hg : t = "gradient"
      · subst hg
        simp only [ht]
        cases hu : cleanStrVal l.units <;>
          simp [apply_ite LegendDict.min, apply_ite LegendDict.max]
      · simp only [ht]
        have hne : ¬ (t = "gradient") := hg
        cases hu : cleanStrVal l.units <;>
          simp [hne, apply_ite LegendDict.min, apply_ite LegendDict.max, Option.some_inj, hg]

/-- Claim C7: a row whose header (first cell, stripped, lower-cased, first
line) is empty is silently skipped when the second cell is also empty, but
raises the fatal structural error — aborting the remaining rows — when the
second cell has content. -/
theorem c7_empty_header : ∀ (iTable : Nat) (c0 c1 : String) (st : DocState),
    rowHeaderS c0 = "" →
    ((pyStripS c1 = "" → processRowStep iTable ⟨c0, c1⟩ st = .ok st) ∧
     (pyStripS c1 ≠ "" → ∀ rest, processRows iTable (⟨c0, c1⟩ :: rest) st = .error emptyHeaderMsg)) := by
  intro i c0 c1 st h0
  constructor
  · intro h1
    unfold processRowStep
    simp [h0, h1]
  · intro h1 rest
    have hstep : processRowStep i ⟨c0, c1⟩ st = .error emptyHeaderMsg := by
      unfold processRowStep
      simp [h0, h1]
    unfold processRows
    rw [hstep]

/-- Claim C7, witness: a blank-header row with a blank value is skipped; a
blank-header row with content aborts even with rows remaining. -/
theorem c7_empty_header_witness :
    processRowStep 0 ⟨"  ", ""⟩ {} = .ok {} ∧
    processRows 1 [⟨" \n", " x"⟩, ⟨"id", "v"⟩] {} = .error emptyHeaderMsg := by
  constructor
  · exact (c7_empty_header 0 "  " "" {} (by decide)).1 (by decide)
  · exact (c7_empty_header 1 " \n" " x" {} (by decide)).2 (by decide) [⟨"id", "v"⟩]

/-- Claim C5: both validators return members of their closed enumerations
unchanged; any value outside — comparison being exact and case-sensitive —
produces an error message embedding the offending value (and, by
construction of the message, the enumeration); during record assembly such a
colormap error propagates and aborts the layer loop. -/
theorem c5_validators : ∀ s : String,
    (check_if_colormap_is_valid s = .ok s ↔ s ∈ valid_colors) ∧
    (s ∉ valid_colors → ∃ p q, check_if_colormap_is_valid s = .error (p ++ s ++ q)) ∧
    (check_if_projection_is_valid s = .ok s ↔ s ∈ valid_projection) ∧
    (s ∉ valid_projection → ∃ p q, check_if_projection_is_valid s = .error (p ++ s ++ q)) ∧
    (∀ hex_or_rgb dsId t1 l, cleanStrVal l.colormap_name = some s → s ∉ valid_colors →
      ∃ e, assembleMaybe hex_or_rgb dsId t1 l = .error e) := by
  intro s
  refine ⟨?_, ?_, ?_, ?_, ?_⟩
  · unfold check_if_colormap_is_valid
    by_cases h : s ∈ valid_colors <;> simp [h]
  · intro h
    refine ⟨"Invalid colormap: ",
      ". \n\nPlease choose from the list of " ++ validColorsRepr ++ ".", ?_⟩
    unfold check_if_colormap_is_valid
    rw [if_neg h]
    simp [String.append_assoc]
  · unfold check_if_projection_is_valid
    by_cases h : s ∈ valid_projection <;> simp [h]
  · intro h
    refine ⟨"Invalid projection: ",
      ". Please choose from the list of " ++ validProjectionRepr ++ ".", ?_⟩
    unfold check_if_projection_is_valid
    rw [if_neg h]
    simp [String.append_assoc]
  · intro m d t1 l hcm hnot
    have hem : layerRecIsEmpty l = false := by
      rcases hl : l.colormap_name with _ | w
      · rw [hl] at hcm
        simp [cleanStrVal] at hcm
      · unfold layerRecIsEmpty
        rw [hl]
        simp
    obtain ⟨msg, hmsg⟩ : ∃ msg, check_if_colormap_is_valid s = .error msg := by
      unfold check_if_colormap_is_valid
      rw [if_neg hnot]
      exact ⟨_, rfl⟩
    have hcp : colormapParamOf l = .error msg := by
      unfold colormapParamOf
      rw [hcm]
      show (check_if_colormap_is_valid s).map some = _
      rw [hmsg]
      rfl
    have hsp : sourceParamsOf l = .error msg := by
      unfold sourceParamsOf
      show (colormapParamOf l >>= _) = _
      rw [hcp]
      rfl
    refine ⟨msg, ?_⟩
    unfold assembleMaybe
    rw [hem]
    rw [if_neg Bool.false_ne_true]
    show (sourceParamsOf l >>= _) = _
    rw [hsp]
    rfl

/-- Claim C5, witness: `viridis` passes, `Viridis` fails with a message
naming it, `mercator` passes, and a record carrying colormap `Viridis`
aborts assembly. -/
theorem c5_validators_witness :
    check_if_colormap_is_valid "viridis" = .ok "viridis" ∧
    (∃ p q, check_if_colormap_is_valid "Viridis" = .error (p ++ "Viridis" ++ q)) ∧
    check_if_projection_is_valid "mercator" = .ok "mercator" ∧
    (∃ e, assembleMaybe "rgb" "" {} { colormap_name := some "Viridis" } = .error e) := by
  refine ⟨(c5_validators "viridis").1.mpr (by decide),
    (c5_validators "Viridis").2.1 (by decide),
    (c5_validators "mercator").2.2.1.mpr (by decide),
    (c5_validators "Viridis").2.2.2.2 "rgb" "" {} { colormap_name := some "Viridis" }
      (by decide) (by decide)⟩

/-- Claim C8: when the first extracted `Value:` text of a table-1
`content_source` row lower-cases to `null`, the stored entry is the list of
`source` values already collected in table 0`s tags, or the sentinel
singleton when no such values exist. -/
theorem c8_content_source : ∀ (row : Row) (t0 : Table0) (t1 : Table1),
    (∃ v rest, valueFindallS (check_value_string_length (pyStripS row.c1)) = v :: rest ∧
      pyLowerS v = "null") →
    dictGet (parse_table_value_content row "content_source" t0 t1).lists "content_source" =
      some (if t0.tags.filterMap (fun kv => if kv.1 = "source" then some kv.2 else none) ≠ []
            then t0.tags.filterMap (fun kv => if kv.1 = "source" then some kv.2 else none)
            else [sentinel]) := by
  intro row t0 t1 h
  obtain ⟨v, rest, hv, hn⟩ := h
  unfold parse_table_value_content
  rw [if_pos rfl]
  rw [hv]
  simp only [hn, if_pos rfl]
  exact dictGet_dictSet ..

/-- Claim C8, witness: `Value: null` with a table-0 tag source `NASA` yields
`["NASA"]`; with no tags at all it yields the sentinel singleton. -/
theorem c8_content_source_witness :
    dictGet (parse_table_value_content ⟨"x", "Value: null"⟩ "content_source"
        { tags := [("topic", "T"), ("source", "NASA")] } {}).lists "content_source" =
      some ["NASA"] ∧
    dictGet (parse_table_value_content ⟨"x", "Value: null"⟩ "content_source" {} {}).lists
        "content_source" = some [sentinel] := by
  constructor
  · have h := c8_content_source ⟨"x", "Value: null"⟩
      { tags := [("topic", "T"), ("source", "NASA")] } {} ⟨"null", [], by decide, by decide⟩
    simpa using h
  · have h := c8_content_source ⟨"x", "Value: null"⟩ {} {} ⟨"null", [], by decide, by decide⟩
    simpa using h

/-- Claim C9: the number of layer records equals the number of
`Layer name:` matches, and every field of the `i`-th record is exactly the
`i`-th element of that field`s own independently extracted match list —
absent (never defaulted, never an error) when that list is too short. -/
theorem c9_layer_correlation : ∀ (all_text : String) (i : Nat) (rec : LayerRec),
    (parse_layer_information all_text)[i]? = some rec →
    (parse_layer_information all_text).length = (labelFindallS "Layer name: " all_text).length ∧
    rec.layer_name = (labelFindallS "Layer name: " all_text)[i]? ∧
    rec.stacCol = (labelFindallS "stacCol: " all_text)[i]? ∧
    rec.layer_id = (labelFindallS "Layer id: " all_text)[i]? ∧
    rec.layer_description = (labelFindallS "Layer description: " all_text)[i]? ∧
    rec.units = (labelFindallS "Units: " all_text)[i]? ∧
    rec.color_ramp_description = (labelFindallS "Color ramp description: " all_text)[i]? ∧
    rec.color_stops = (colorGroupsS all_text)[i]? ∧
    rec.data_format = (labelFindallS "Data format: " all_text)[i]? ∧
    rec.projection = (labelFindallS "Projection: " all_text)[i]? ∧
    rec.legend_minimum = (labelFindallS "Legend minimum: " all_text)[i]? ∧
    rec.legend_maximum = (labelFindallS "Legend maximum: " all_text)[i]? ∧
    rec.legend_type = (labelFindallS "Legend type: " all_text)[i]? ∧
    rec.colormap_name = (labelFindallS "Colormap name: " all_text)[i]? ∧
    rec.resampling = (labelFindallS "Resampling: " all_text)[i]? ∧
    rec.rescale_min = (labelFindallS "Rescale minimum: " all_text)[i]? ∧
    rec.rescale_max = (labelFindallS "Rescale maximum: " all_text)[i]? := by
  intro t i rec h
  unfold parse_layer_information at h ⊢
  simp only [List.getElem?_map] at h
  obtain ⟨j, hj, hrec⟩ := Option.map_eq_some'.mp h
  have hlt : i < (labelFindallS "Layer name: " t).length := by
    by_contra hge
    rw [List.getElem?_eq_none (by simpa using Nat.le_of_not_lt hge)] at hj
    cases hj
  rw [List.getElem?_range hlt] at hj
  obtain rfl : i = j := Option.some_inj.mp hj
  subst hrec
  refine ⟨by simp, rfl, rfl, rfl, rfl, rfl, rfl, rfl, rfl, rfl, rfl, rfl, rfl, rfl, rfl,
    rfl, rfl⟩

/-- Claim C9, witness: with two `Layer name:` occurrences but a single
`Layer id:`, the second record exists and its id field is absent. -/
theorem c9_layer_correlation_witness :
    ∃ rec, (parse_layer_information "Layer name: A\nLayer id: a1\nLayer name: B\n")[1]? =
        some rec ∧
      rec.layer_id = (labelFindallS "Layer id: " "Layer name: A\nLayer id: a1\nLayer name: B\n")[1]? ∧
      (labelFindallS "Layer id: " "Layer name: A\nLayer id: a1\nLayer name: B\n")[1]? = none := by
  have h : (parse_layer_information "Layer name: A\nLayer id: a1\nLayer name: B\n")[1]? =
      some { layer_name := some "B" } := by decide
  exact ⟨_, h, (c9_layer_correlation _ 1 _ h).2.2.2.1, by decide⟩

/-- A table-0 row whose header is not `media` leaves the collected media
list unchanged. -/
theorem table_0_info_media_of_ne (row : Row) (header : String) (t0 : Table0)
    (h : header ≠ "media") : (table_0_info row header t0).media = t0.media := by
  unfold table_0_info
  rw [if_neg h]
  split_ifs <;> rfl

/-- A successful step on a non-`media` row (any table index) preserves the
media list. -/
theorem processRowStep_media (i : Nat) (r : Row) (st st' : DocState)
    (h : processRowStep i r st = .ok st') (hm : rowHeaderS r.c0 ≠ "media") :
    st'.t0.media = st.t0.media := by
  unfold processRowStep at h
  dsimp only at h
  split_ifs at h with h1 h2
  · cases h
    rfl
  · cases h
    rcases i with _ | _ | _ | i
    · exact table_0_info_media_of_ne r _ st.t0 hm
    · rfl
    · rfl
    · rfl

/-- A successful table-0 pass over rows none of which has header `media`
preserves the media list. -/
theorem processRows_media : ∀ (i : Nat) (rows : List Row) (st st' : DocState),
    processRows i rows st = .ok st' → (∀ r ∈ rows, rowHeaderS r.c0 ≠ "media") →
    st'.t0.media = st.t0.media := by
  intro i rows
  induction rows with
  | nil =>
      intro st st' h _
      cases h
      rfl
  | cons r rs ih =>
      intro st st' h hm
      unfold processRows at h
      cases hstep : processRowStep i r st with
      | error e => rw [hstep] at h; cases h
      | ok st2 =>
          rw [hstep] at h
          have h1 := processRowStep_media i r st st2 hstep (hm r (by simp))
          have h2 := ih st2 st' h (fun x hx => hm x (by simp [hx]))
          rw [h2, h1]

/-- A successful step at a table index other than 0 preserves `table_0`
entirely. -/
theorem processRowStep_t0 (i : Nat) (r : Row) (st st' : DocState) (hi : i ≠ 0)
    (h : processRowStep i r st = .ok st') : st'.t0 = st.t0 := by
  unfold processRowStep at h
  dsimp only at h
  split_ifs at h
  · cases h
    rfl
  · cases h
    rcases i with _ | _ | _ | i
    · exact absurd rfl hi
    · rfl
    · rfl
    · rfl

/-- A successful pass over any rows at a table index other than 0 preserves
`table_0`. -/
theorem processRows_t0 : ∀ (i : Nat) (rows : List Row) (st st' : DocState), i ≠ 0 →
    processRows i rows st = .ok st' → st'.t0 = st.t0 := by
  intro i rows
  induction rows with
  | nil =>
      intro st st' _ h
      cases h
      rfl
  | cons r rs ih =>
      intro st st' hi h
      unfold processRows at h
      cases hstep : processRowStep i r st with
      | error e => rw [hstep] at h; cases h
      | ok st2 =>
          rw [hstep] at h
          rw [ih st2 st' hi h, processRowStep_t0 i r st st2 hi hstep]

/-- A successful pass over the tables after the first preserves `table_0`. -/
theorem processTables_t0 : ∀ (ts : List (List Row)) (j : Nat) (st st' : DocState), 1 ≤ j →
    processTables j ts st = .ok st' → st'.t0 = st.t0 := by
  intro ts
  induction ts with
  | nil =>
      intro j st st' _ h
      cases h
      rfl
  | cons t rest ih =>
      intro j st st' hj h
      unfold processTables at h
      cases hrows : processRows j t st with
      | error e => rw [hrows] at h; cases h
      | ok st2 =>
          rw [hrows] at h
          have h1 := processRows_t0 j t st st2 (by omega) hrows
          rw [ih (j + 1) st2 st' (by omega) h, h1]

/-- Claim C10: for a document whose first table has no `media` row, the
collected media list is empty and the assembled media block is exactly
`src = None`, sentinel alt text and sentinel author name/url. -/
theorem c10_media_default : ∀ (tables : List (List Row)) (st : DocState),
    extract_table_info_from_docx tables = .ok st →
    (∀ r ∈ tables.headD [], rowHeaderS r.c0 ≠ "media") →
    constructMediaBlock st.t0 =
      { src := none, alt := "Data not provided",
        author := { name := "Data not provided", url := "Data not provided" } } := by
  intro tables st h hm
  have hmedia : st.t0.media = [] := by
    cases tables with
    | nil =>
        unfold extract_table_info_from_docx processTables at h
        cases h
        rfl
    | cons t ts =>
        unfold extract_table_info_from_docx processTables at h
        cases hrows : processRows 0 t ({} : DocState) with
        | error e => rw [hrows] at h; cases h
        | ok st2 =>
            rw [hrows] at h
            have h1 : st2.t0.media = ({} : DocState).t0.media :=
              processRows_media 0 t {} st2 hrows (by simpa using hm)
            have h2 := processTables_t0 ts 1 st2 st (by omega) h
            rw [h2, h1]
  unfold constructMediaBlock
  rw [hmedia]
  rfl

/-- Claim C10, witness: a document with only an `id` row gets the default
media block. -/
theorem c10_media_default_witness :
    ∃ st, extract_table_info_from_docx [[⟨"Id", "doc-1"⟩]] = .ok st ∧
      constructMediaBlock st.t0 =
        { src := none, alt := "Data not provided",
          author := { name := "Data not provided", url := "Data not provided" } } := by
  refine ⟨_, rfl, c10_media_default [[⟨"Id", "doc-1"⟩]] _ rfl (by decide)⟩

/-- Splitting a character list at its first newline. -/
theorem takeWhile_newline_split (l : List Char) (h : '\n' ∈ l) :
    ∃ b, l = l.takeWhile (· != '\n') ++ '\n' :: b := by
  induction l with
  | nil => cases h
  | cons c cs ih =>
      by_cases hc : c = '\n'
      · subst hc
        exact ⟨cs, by simp [List.takeWhile_cons]⟩
      · have h' : '\n' ∈ cs := by
          rcases List.mem_cons.mp h with h1 | h1
          · exact absurd h1.symm hc
          · exact h1
        obtain ⟨b, hb⟩ := ih h'
        refine ⟨b, ?_⟩
        rw [List.takeWhile_cons]
        simp only [bne_iff_ne, ne_eq, hc, not_false_eq_true, if_true]
        rw [List.cons_append]
        exact congrArg (c :: ·) hb

/-- The newline-free part taken by the lazy capture contains no newline. -/
theorem newline_not_mem_takeWhile (l : List Char) :
    '\n' ∉ l.takeWhile (· != '\n') := by
  intro hmem
  have := List.mem_takeWhile_imp hmem
  simp at this

/-- Soundness of the `re.search(label + "(.*?)\n")` model: a match means the
text decomposes as junk, a case-insensitive copy of the label, the captured
value (which is newline-free and captured verbatim) and a newline. -/
theorem fm_sound : ∀ (L text v : List Char), fm L text = some v →
    '\n' ∉ v ∧ ∃ a lbl b, text = a ++ lbl ++ v ++ '\n' :: b ∧ lowerL lbl = lowerL L := by
  intro L text
  induction text with
  | nil => intro v h; cases h
  | cons c cs ih =>
      intro v h
      unfold fm at h
      by_cases hcond : lowerL ((c :: cs).take L.length) = lowerL L ∧ '\n' ∈ (c :: cs).drop L.length
      · rw [if_pos hcond] at h
        obtain ⟨hl, hn⟩ := hcond
        obtain rfl : ((c :: cs).drop L.length).takeWhile (· != '\n') = v :=
          Option.some_inj.mp h
        obtain ⟨b, hb⟩ := takeWhile_newline_split _ hn
        refine ⟨newline_not_mem_takeWhile _, [], (c :: cs).take L.length, b, ?_, hl⟩
        have hparts : c :: cs = (c :: cs).take L.length ++ (c :: cs).drop L.length :=
          (List.take_append_drop _ _).symm
        rw [hb] at hparts
        simpa [List.append_assoc] using hparts
      · rw [if_neg hcond] at h
        obtain ⟨hnin, a, lbl, b, hdec, hl⟩ := ih v h
        exact ⟨hnin, c :: a, lbl, b, by simp [hdec], hl⟩

/-- Completeness of the `re.search(label + "(.*?)\n")` model: whenever the
text contains a case-insensitive copy of the label followed by a
newline-free run and a newline, the scan finds a match. -/
theorem fm_complete : ∀ (L a lbl v b : List Char), lowerL lbl = lowerL L → '\n' ∉ v →
    (fm L (a ++ lbl ++ v ++ '\n' :: b)).isSome := by
  intro L a
  induction a with
  | nil =>
      intro lbl v b hl hv
      have hlen : lbl.length = L.length := by
        have := congrArg List.length hl
        simpa [lowerL] using this
      have hne : lbl ++ v ++ '\n' :: b ≠ [] := by
        intro hh
        rcases lbl with _ | ⟨x, xs⟩
        · rcases v with _ | ⟨y, ys⟩
          · simp at hh
          · simp at hh
        · simp at hh
      simp only [List.nil_append]
      rcases hcs : lbl ++ v ++ '\n' :: b with _ | ⟨c, cs⟩
      · exact absurd hcs hne
      · have htake : (c :: cs).take L.length = lbl := by
          rw [← hcs, ← hlen, List.append_assoc]
          exact List.take_left lbl (v ++ '\n' :: b)
        have hdrop : (c :: cs).drop L.length = v ++ '\n' :: b := by
          rw [← hcs, ← hlen, List.append_assoc]
          exact List.drop_left lbl (v ++ '\n' :: b)
        unfold fm
        rw [if_pos ⟨by rw [htake, hl], by rw [hdrop]; simp⟩]
        rfl
  | cons c a' ih =>
      intro lbl v b hl hv
      simp only [List.cons_append]
      unfold fm
      by_cases hcond : lowerL ((c :: (a' ++ lbl ++ v ++ '\n' :: b)).take L.length) = lowerL L ∧
          '\n' ∈ (c :: (a' ++ lbl ++ v ++ '\n' :: b)).drop L.length
      · rw [if_pos hcond]
        rfl
      · rw [if_neg hcond]
        have := ih lbl v b hl hv
        simpa [List.append_assoc] using this

/-- Claim C4, amended: for every label rule, a match makes the extractor
emit the captured value verbatim — everything between the label and the next
newline, untrimmed — and a miss means no `label: value` line exists at all,
in which case the literal sentinel is emitted, as the `parse_tag_information`
wiring shows. -/
theorem c4_amended : ∀ (L : List Char) (text : String),
    (∀ v, fm L text.data = some v →
      '\n' ∉ v ∧ ∃ a lbl b, text.data = a ++ lbl ++ v ++ '\n' :: b ∧ lowerL lbl = lowerL L) ∧
    (fm L text.data = none →
      ∀ a lbl v b, text.data = a ++ lbl ++ v ++ '\n' :: b → lowerL lbl = lowerL L →
        '\n' ∈ v) ∧
    parse_tag_information text =
      [("topic", (fmS "Topic: " text).getD sentinel),
       ("subtopic", (fmS "Subtopic: " text).getD sentinel),
       ("source", (fmS "Source: " text).getD sentinel),
       ("product_type", (restSearchS "Product Type:" text).getD sentinel)] := by
  intro L text
  refine ⟨fun v h => fm_sound L text.data v h, ?_, ?_⟩
  · intro hnone a lbl v b hdec hl
    by_contra hv
    have hsome := fm_complete L a lbl v b hl hv
    rw [← hdec] at hsome
    rw [hnone] at hsome
    cases hsome
  · unfold parse_tag_information
    cases h1 : fmS "Topic: " text <;> cases h2 : fmS "Subtopic: " text <;>
      cases h3 : fmS "Source: " text <;> cases h4 : restSearchS "Product Type:" text <;>
        simp [h1, h2, h3, h4]

/-- Claim C4, amended, witness: the rule `Topic: ` applied to
`"Topic: ice \nmore"` captures `"ice "` verbatim, and the match decomposes
the text as the theorem states. -/
theorem c4_amended_witness :
    '\n' ∉ "ice ".data ∧
    ∃ a lbl b, "Topic: ice \nmore".data = a ++ lbl ++ "ice ".data ++ '\n' :: b ∧
      lowerL lbl = lowerL "Topic: ".data :=
  (c4_amended "Topic: ".data "Topic: ice \nmore").1 "ice ".data (by decide)

/-- Claim C4, counterexample: the extractor emits `"ice "` — the capture
verbatim, with its trailing space — where the claim demands the trimmed
`"ice"`; so the emitted value differs from its own trim. -/
theorem c4_counterexample :
    parse_tag_information "Topic: ice \nmore" =
      [("topic", "ice "), ("subtopic", sentinel), ("source", sentinel),
       ("product_type", sentinel)] ∧
    pyStripS "ice " ≠ "ice " := by
  exact ⟨by decide, by decide⟩

/-- A finalized layer exists exactly when the cleaned id is present, and it
carries that id. -/
theorem finalizeLayer_isSome (dsId : String) (t1info : InfoBlock) (sp : SourceParams)
    (legend : LegendDict) (proj : Option String) (l : LayerRec) :
    ((finalizeLayer dsId t1info sp legend proj l).isSome ↔ (cleanStrVal l.layer_id).isSome) ∧
    (∀ a, finalizeLayer dsId t1info sp legend proj l = some a →
      cleanStrVal l.layer_id = some a.id) := by
  constructor
  · unfold finalizeLayer
    simp
  · intro a ha
    unfold finalizeLayer at ha
    obtain ⟨lid, hlid, hrec⟩ := Option.map_eq_some'.mp ha
    rw [hlid]
    rw [← hrec]

/-- A successful layer step yields an appended record exactly when the
cleaned layer id is present, and the appended record carries that id. -/
theorem assembleMaybe_ok : ∀ (hex_or_rgb dsId : String) (t1 : Table1) (l : LayerRec)
    (r : Option AssembledLayer), assembleMaybe hex_or_rgb dsId t1 l = .ok r →
    (r.isSome ↔ (cleanStrVal l.layer_id).isSome) ∧
    (∀ a, r = some a → cleanStrVal l.layer_id = some a.id) := by
  intro m d t1 l r h
  unfold assembleMaybe at h
  by_cases he : layerRecIsEmpty l = true
  · rw [if_pos he] at h
    obtain rfl : (none : Option AssembledLayer) = r := Except.ok.inj h
    have hid : l.layer_id = none := by
      unfold layerRecIsEmpty at he
      simp only [Bool.and_eq_true, Option.isNone_iff_eq_none] at he
      exact he.1.1.1.1.1.1.1.1.1.1.1.1.1.2
    constructor
    · simp [hid, cleanStrVal]
    · intro a ha
      cases ha
  · rw [if_neg he] at h
    obtain ⟨sp, hsp, h2⟩ := bindEqOk h
    obtain ⟨proj, hproj, h3⟩ := bindEqOk h2
    obtain ⟨info, hinfo, h4⟩ := bindEqOk h3
    obtain rfl : finalizeLayer d info sp (legendDictOf m l) proj l = r := Except.ok.inj h4
    exact finalizeLayer_isSome d info sp (legendDictOf m l) proj l

/-- Claim C6, counterexample: a document with two `layers` rows, each
holding one layer with a non-empty id.  Both container dicts get the key
`Layer0` (the index restarts per row), so at enumerate position 1 the lookup
`get("Layer1")` misses and layer B — whose cleaned id is the non-empty
`b1` — is silently dropped: the final layers list holds only `a1`, refuting
the claimed "appears if and only if its cleaned id is non-empty". -/
theorem c6_counterexample :
    ∃ st out,
      extract_table_info_from_docx
          [[⟨"Layers", "Layer name: A\nLayer id: a1\nend"⟩,
            ⟨"Layers", "Layer name: B\nLayer id: b1\nend"⟩]] = .ok st ∧
      constructLayersOf "rgb" st.t0 st.t1 = .ok out ∧
      out.map (fun a => a.id) = ["a1"] ∧
      st.t0.layers.map (fun c => c.1) = ["Layer0", "Layer0"] ∧
      st.t0.layers.map (fun c => cleanStrVal c.2.layer_id) = [some "a1", some "b1"] := by
  exact ⟨_, _, rfl, rfl, rfl, rfl, rfl⟩

/-- Unfolding of `containerIncluded` at an explicit pair. -/
theorem containerIncluded_eq (i : Nat) (c : String × LayerRec) :
    containerIncluded (i, c) =
      match containerGet i c with
      | none => false
      | some l => (cleanStrVal l.layer_id).isSome := rfl

/-- A successful lookup-and-assemble step appends a record exactly when the
container`s key matches its enumerate index and the found record`s cleaned
id is present, and the appended record carries that id. -/
theorem assembleContainer_ok : ∀ (hex_or_rgb dsId : String) (t1 : Table1) (i : Nat)
    (c : String × LayerRec) (r : Option AssembledLayer),
    assembleContainer hex_or_rgb dsId t1 i c = .ok r →
    (r.isSome ↔ containerIncluded (i, c) = true) ∧
    (∀ a, r = some a → ∃ l, containerGet i c = some l ∧ cleanStrVal l.layer_id = some a.id) := by
  intro m d t1 i c r h
  unfold assembleContainer at h
  cases hg : containerGet i c with
  | none =>
      rw [hg] at h
      obtain rfl : (none : Option AssembledLayer) = r := Except.ok.inj h
      constructor
      · rw [containerIncluded_eq, hg]
        simp
      · intro a ha
        cases ha
  | some l =>
      rw [hg] at h
      have h' : assembleMaybe m d t1 l = .ok r := h
      obtain ⟨hiff, hid⟩ := assembleMaybe_ok m d t1 l r h'
      constructor
      · rw [containerIncluded_eq, hg]
        exact hiff
      · intro a ha
        exact ⟨l, rfl, hid a ha⟩

/-- Claim C6, amended: when the layer loop completes without a fatal error,
the number of appended layers is exactly the number of container dicts that,
at their enumerate position `i`, hold the key `Layer{i}` with a record whose
cleaned `id` is present; every other container — id-less records, but also
id-bearing records whose container key misses its position, as happens past
the first `layers` row — is silently dropped, and every appended layer takes
its `id` from the record its container holds. -/
theorem c6_layer_inclusion : ∀ (hex_or_rgb dsId : String) (t1 : Table1) (i0 : Nat)
    (layers : List (String × LayerRec)) (out : List AssembledLayer),
    constructLayers hex_or_rgb dsId t1 i0 layers = .ok out →
    out.length = (List.enumFrom i0 layers).countP containerIncluded ∧
    ∀ a ∈ out, ∃ p ∈ List.enumFrom i0 layers, ∃ l, containerGet p.1 p.2 = some l ∧
      cleanStrVal l.layer_id = some a.id := by
  intro m d t1 i0 layers
  induction layers generalizing i0 with
  | nil =>
      intro out h
      obtain rfl : ([] : List AssembledLayer) = out := Except.ok.inj h
      exact ⟨by simp [List.enumFrom], by simp [List.enumFrom]⟩
  | cons c cs ih =>
      intro out h
      obtain ⟨r, hr, h2⟩ := bindEqOk h
      obtain ⟨rest, hrest, h3⟩ := bindEqOk h2
      obtain ⟨hiff, hid⟩ := assembleContainer_ok m d t1 i0 c r hr
      obtain ⟨ihlen, ihmem⟩ := ih (i0 + 1) rest hrest
      have henum : List.enumFrom i0 (c :: cs) = (i0, c) :: List.enumFrom (i0 + 1) cs := rfl
      cases r with
      | some a =>
          obtain rfl : a :: rest = out := Except.ok.inj h3
          have hpred : containerIncluded (i0, c) = true := hiff.mp (by simp)
          constructor
          · rw [henum]
            simp [List.countP_cons, hpred, ihlen]
          · intro x hx
            rcases List.mem_cons.mp hx with rfl | hx'
            · obtain ⟨l, hgl, hcl⟩ := hid x rfl
              exact ⟨(i0, c), by rw [henum]; simp, l, hgl, hcl⟩
            · obtain ⟨p, hp, l, hgl, hcl⟩ := ihmem x hx'
              exact ⟨p, by rw [henum]; exact List.mem_cons_of_mem _ hp, l, hgl, hcl⟩
      | none =>
          obtain rfl : rest = out := Except.ok.inj h3
          have hpred : containerIncluded (i0, c) = false := by
            cases hh : containerIncluded (i0, c) with
            | false => rfl
            | true => exact absurd (hiff.mpr hh) (by simp)
          constructor
          · rw [henum]
            simp [List.countP_cons, hpred, ihlen]
          · intro x hx
            obtain ⟨p, hp, l, hgl, hcl⟩ := ihmem x hx
            exact ⟨p, by rw [henum]; exact List.mem_cons_of_mem _ hp, l, hgl, hcl⟩

/-- Claim C6, amended, witness: two containers both keyed `Layer0` and both
holding id-bearing records — exactly the position-aligned first one is
appended, carrying its id, and the count formula agrees. -/
theorem c6_layer_inclusion_witness :
    ∃ out, constructLayers "rgb" "ds" {} 0
        [("Layer0", { layer_id := some "a1" }), ("Layer0", { layer_id := some "b1" })] =
          .ok out ∧
      out.length = (List.enumFrom 0
        [("Layer0", ({ layer_id := some "a1" } : LayerRec)),
         ("Layer0", { layer_id := some "b1" })]).countP containerIncluded ∧
      ∀ a ∈ out, ∃ p ∈ List.enumFrom 0
          [("Layer0", ({ layer_id := some "a1" } : LayerRec)),
           ("Layer0", { layer_id := some "b1" })],
        ∃ l, containerGet p.1 p.2 = some l ∧ cleanStrVal l.layer_id = some a.id := by
  refine ⟨_, rfl,
    (c6_layer_inclusion "rgb" "ds" {} 0
      [("Layer0", { layer_id := some "a1" }), ("Layer0", { layer_id := some "b1" })] _ rfl).1,
    (c6_layer_inclusion "rgb" "ds" {} 0
      [("Layer0", { layer_id := some "a1" }), ("Layer0", { layer_id := some "b1" })] _ rfl).2⟩

end D2M
